import Mathlib

/-!
Shallow embedding of the sway-im-popup demo input method
(src/sway-im-popup/src/main.rs).

The program is a single-threaded Wayland event loop.  We model:

* the mutable state of the App struct (pending_active, grabbed_keyboard,
  open_popup, surface, buffer) together with the DRAW_COUNT static from
  draw_into, as the structure App below.  Compositor-side handles are
  represented by generation counters (Nat identities), so that lifetimes
  of successive Grab/Popup/Surface/Buffer instances can be told apart;
* the incoming compositor events the dispatch loop routes to the three
  Dispatch impls (ZwpInputMethodV2, ZwpInputMethodKeyboardGrabV2,
  WlCallback) as the inductive Ev;
* the outbound protocol requests each handler emits, in order, as the
  inductive Req.  Dropping a GrabbedKeyboard emits a release request and
  dropping an OpenPopup emits a destroy request, exactly as the Drop
  impls in the source do.

Whether buffer.canvas(shm) returns Some (the previous buffer is not in
flight) is decided by the compositor, so it enters the model as a
Boolean oracle carried by the events that can trigger a draw.

The ghost fields pendingFrames (outstanding frame-callback requests, by
surface identity, oldest first) and fillParams (the DRAW_COUNT value
consumed by each successive draw_into call) record observations needed
to state the specification claims; they do not influence any transition
other than frame-callback delivery, which in reality can also only
happen while a callback is outstanding.
-/

/-- Pixel geometry from the source: const WIDTH: usize = 10. -/
def WIDTH : Nat := 10

/-- Pixel geometry from the source: const HEIGHT: usize = 300. -/
def HEIGHT : Nat := 300

/-- Byte length of one pixel buffer, WIDTH * HEIGHT * 4 (Argb8888, stride WIDTH*4). -/
def bufLen : Nat := WIDTH * HEIGHT * 4

/-- Outbound protocol requests, in the order the handlers issue them.
Handles are identified by generation numbers. -/
inductive Req where
  | grab (g : Nat)
  | release (g : Nat)
  | popupCreate (p surf : Nat)
  | popupDestroy (p : Nat)
  | surfaceDestroy (surf : Nat)
  | surfaceCreate (surf : Nat)
  | attach (surf buf : Nat)
  | damage (surf x y w h : Nat)
  | frame (surf : Nat)
  | commit (surf : Nat)
  | vkKey (time key ks : Nat)
  | vkKeymap (format fd size : Nat)
  | vkModifiers (depressed latched locked group : Nat)
  deriving DecidableEq, Repr

/-- Incoming compositor events dispatched by the event loop.  A key
event carries the raw key-state value (wl_keyboard KeyState: 1 means
pressed, 0 released).  The avail flag is the oracle for
buffer.canvas(shm) returning Some at the draw this event may trigger. -/
inductive Ev where
  | activate
  | deactivate
  | done
  | key (time keycode ks : Nat) (avail : Bool)
  | keymap (format fd size : Nat)
  | modifiers (depressed latched locked group : Nat)
  | frameCb (avail : Bool)
  deriving DecidableEq, Repr

/-- The App struct state (plus the DRAW_COUNT static and ghost
observations).  bufId/bufData model the buffer field: its pool-slot
identity and its byte contents. -/
structure App where
  pending_active : Bool
  grabbed_keyboard : Option Nat
  open_popup : Option Nat
  surface : Nat
  bufId : Nat
  bufData : List Nat
  drawCount : Nat
  pendingFrames : List Nat
  nextSurfaceId : Nat
  nextGrabId : Nat
  nextPopupId : Nat
  nextBufId : Nat
  fillParams : List Nat
  deriving DecidableEq, Repr

/-- Initial state built in main: inactive, no grab, no popup, surface 0,
one freshly created (zeroed) buffer, no draw has happened yet. -/
def initApp : App where
  pending_active := false
  grabbed_keyboard := none
  open_popup := none
  surface := 0
  bufId := 0
  bufData := List.replicate bufLen 0
  drawCount := 0
  pendingFrames := []
  nextSurfaceId := 1
  nextGrabId := 0
  nextPopupId := 0
  nextBufId := 1
  fillParams := []

/-- const RED: [u8; 4] = [0, 0, 255, 255]. -/
def RED : List Nat := [0, 0, 255, 255]

/-- const BLUE: [u8; 4] = [255, 0, 0, 255]. -/
def BLUE : List Nat := [255, 0, 0, 255]

/-- The four bytes written for the pixel at the given index:
if index / WIDTH < count / 10 then RED else BLUE. -/
def fillChunk (count index : Nat) : List Nat :=
  if index / WIDTH < count / 10 then RED else BLUE

/-- The chunks_exact_mut(4) loop of draw_into: each complete 4-byte
chunk is overwritten with fillChunk; a trailing fragment shorter than 4
bytes is left untouched (chunks_exact_mut skips the remainder). -/
def fillIntoAux (count : Nat) : Nat → List Nat → List Nat
  | index, _ :: _ :: _ :: _ :: rest =>
      fillChunk count index ++ fillIntoAux count (index + 1) rest
  | _, rest => rest

/-- draw_into, for a fixed DRAW_COUNT value: fills the buffer from the
counter.  The fetch_add increment of DRAW_COUNT is performed by the
caller (draw), which passes the pre-increment value here. -/
def draw_into (count : Nat) (data : List Nat) : List Nat :=
  fillIntoAux count 0 data

/-- The draw function: obtain a writable canvas (reuse the current
buffer if canvas returns Some, i.e. it is not in flight, else allocate
a fresh buffer from the pool), fill it via draw_into with the current
DRAW_COUNT (which is then incremented), then attach, damage the full
surface, request a frame callback, and commit. -/
def draw (avail : Bool) (st : App) : App × List Req :=
  let bid := cond avail st.bufId st.nextBufId
  let nbid := cond avail st.nextBufId (st.nextBufId + 1)
  let data := draw_into st.drawCount (cond avail st.bufData (List.replicate bufLen 0))
  ({ st with
      bufId := bid
      nextBufId := nbid
      bufData := data
      drawCount := st.drawCount + 1
      fillParams := st.fillParams ++ [st.drawCount]
      pendingFrames := st.pendingFrames ++ [st.surface] },
   [Req.attach st.surface bid, Req.damage st.surface 0 0 WIDTH HEIGHT,
    Req.frame st.surface, Req.commit st.surface])

/-- The pressed-key branch of the grab Dispatch impl: toggle the popup.
If a popup is open, drop it (its Drop impl destroys the protocol
object).  Otherwise optionally (workaround flag w, the if false block
in the source) destroy and recreate the surface, create a popup bound
to the current surface, and draw. -/
def pressStep (w avail : Bool) (st : App) : App × List Req :=
  match st.open_popup with
  | some p => ({ st with open_popup := none }, [Req.popupDestroy p])
  | none =>
      let st1 := cond w
        { st with surface := st.nextSurfaceId, nextSurfaceId := st.nextSurfaceId + 1 } st
      let r1 := cond w [Req.surfaceDestroy st.surface, Req.surfaceCreate st.nextSurfaceId] []
      let st2 := { st1 with
        open_popup := some st1.nextPopupId
        nextPopupId := st1.nextPopupId + 1 }
      let r3 := draw avail st2
      (r3.1, r1 ++ [Req.popupCreate st1.nextPopupId st1.surface] ++ r3.2)

/-- One dispatch step of the event loop: routes the event to the
corresponding Dispatch impl of App and returns the new state together
with the outbound requests issued, in order. -/
def step (w : Bool) (st : App) (e : Ev) : App × List Req :=
  match e with
  | .activate => ({ st with pending_active := true }, [])
  | .deactivate => ({ st with pending_active := false }, [])
  | .done =>
      if st.pending_active then
        match st.grabbed_keyboard with
        | some _ => (st, [])
        | none =>
            ({ st with grabbed_keyboard := some st.nextGrabId, nextGrabId := st.nextGrabId + 1 },
             [Req.grab st.nextGrabId])
      else
        match st.grabbed_keyboard with
        | some g => ({ st with grabbed_keyboard := none }, [Req.release g])
        | none => (st, [])
  | .key t k ks avail =>
      let r1 := if ks = 1 then pressStep w avail st else (st, [])
      (r1.1, r1.2 ++ [Req.vkKey t k ks])
  | .keymap f fd sz => (st, [Req.vkKeymap f fd sz])
  | .modifiers d l lk g => (st, [Req.vkModifiers d l lk g])
  | .frameCb avail =>
      match st.pendingFrames with
      | [] => (st, [])
      | _ :: rest => draw avail { st with pendingFrames := rest }

/-- Run the event loop over a list of events, returning the final state. -/
def run (w : Bool) (st : App) : List Ev → App
  | [] => st
  | e :: es => run w (step w st e).1 es

/-- Run the event loop over a list of events, returning the final state
and the concatenated outbound request log. -/
def runLog (w : Bool) (st : App) : List Ev → App × List Req
  | [] => (st, [])
  | e :: es =>
      let p := step w st e
      let q := runLog w p.1 es
      (q.1, p.2 ++ q.2)

/-- Is this event a key press (key-state value 1)? -/
def isPress : Ev → Bool
  | .key _ _ ks _ => ks == 1
  | _ => false

/-- Number of key-press events in a trace. -/
def pressCount (es : List Ev) : Nat := es.countP isPress

/-- Number of occurrences of a given request in a log. -/
def countReq (r : Req) : List Req → Nat
  | [] => 0
  | x :: xs => (if x = r then 1 else 0) + countReq r xs

/-- Number of frame-callback requests (for any surface) in a log. -/
def frameReqs : List Req → Nat
  | [] => 0
  | .frame _ :: xs => 1 + frameReqs xs
  | _ :: xs => frameReqs xs

/-- Number of surface destroy requests in a log. -/
def surfaceDestroys : List Req → Nat
  | [] => 0
  | .surfaceDestroy _ :: xs => 1 + surfaceDestroys xs
  | _ :: xs => surfaceDestroys xs

/-- Number of surface create requests in a log. -/
def surfaceCreates : List Req → Nat
  | [] => 0
  | .surfaceCreate _ :: xs => 1 + surfaceCreates xs
  | _ :: xs => surfaceCreates xs

/-- The (time, keycode, key-state) triples forwarded to the virtual
keyboard, in order. -/
def vkKeyCalls : List Req → List (Nat × Nat × Nat)
  | [] => []
  | .vkKey t k s :: xs => (t, k, s) :: vkKeyCalls xs
  | _ :: xs => vkKeyCalls xs

/-- Number of frame requests outstanding against the state's current
(live) surface. -/
def outstandingOnLive (st : App) : Nat := st.pendingFrames.count st.surface

/-! ## Lemmas about the fill pattern (draw_into) -/

theorem fillIntoAux_nil (c i : Nat) : fillIntoAux c i [] = [] := rfl

theorem fillIntoAux_one (c i a : Nat) : fillIntoAux c i [a] = [a] := rfl

theorem fillIntoAux_two (c i a b : Nat) : fillIntoAux c i [a, b] = [a, b] := rfl

theorem fillIntoAux_three (c i a b d : Nat) : fillIntoAux c i [a, b, d] = [a, b, d] := rfl

theorem fillIntoAux_cons4 (c i p0 p1 p2 p3 : Nat) (r : List Nat) :
    fillIntoAux c i (p0 :: p1 :: p2 :: p3 :: r) =
      fillChunk c i ++ fillIntoAux c (i + 1) r := rfl

theorem fillChunk_eq_red_or_blue (c i : Nat) :
    fillChunk c i = RED ∨ fillChunk c i = BLUE := by
  unfold fillChunk
  split <;> simp

theorem fillIntoAux_idem (c : Nat) :
    ∀ (n : Nat) (d : List Nat) (i : Nat), d.length ≤ n →
      fillIntoAux c i (fillIntoAux c i d) = fillIntoAux c i d := by
  intro n
  induction n with
  | zero =>
      intro d i h
      have : d = [] := List.eq_nil_of_length_eq_zero (Nat.le_zero.mp h)
      subst this
      rfl
  | succ n ih =>
      intro d i h
      match d with
      | [] => rfl
      | [a] => rfl
      | [a, b] => rfl
      | [a, b, e] => rfl
      | p0 :: p1 :: p2 :: p3 :: r =>
          have hr : r.length ≤ n := by
            simp only [List.length_cons] at h
            omega
          rw [fillIntoAux_cons4]
          rcases fillChunk_eq_red_or_blue c i with hc | hc <;>
            rw [hc] <;> simp only [RED, BLUE, List.cons_append, List.nil_append] <;>
            rw [fillIntoAux_cons4, ih r (i + 1) hr, hc] <;>
            simp only [RED, BLUE, List.cons_append, List.nil_append]

theorem fillIntoAux_congr (c : Nat) :
    ∀ (n : Nat) (d₁ d₂ : List Nat) (i : Nat), d₁.length ≤ n →
      d₁.length = d₂.length → 4 ∣ d₁.length →
      fillIntoAux c i d₁ = fillIntoAux c i d₂ := by
  intro n
  induction n with
  | zero =>
      intro d₁ d₂ i h hlen _
      have h1 : d₁ = [] := List.eq_nil_of_length_eq_zero (Nat.le_zero.mp h)
      subst h1
      have h2 : d₂ = [] := List.eq_nil_of_length_eq_zero hlen.symm
      subst h2
      rfl
  | succ n ih =>
      intro d₁ d₂ i h hlen hdvd
      match d₁ with
      | [] =>
          have h2 : d₂ = [] := List.eq_nil_of_length_eq_zero hlen.symm
          subst h2
          rfl
      | [a] =>
          simp only [List.length_cons, List.length_nil] at hdvd
          omega
      | [a, b] =>
          simp only [List.length_cons, List.length_nil] at hdvd
          omega
      | [a, b, e] =>
          simp only [List.length_cons, List.length_nil] at hdvd
          omega
      | p0 :: p1 :: p2 :: p3 :: r =>
          match d₂ with
          | [] => simp at hlen
          | [a] => simp at hlen
          | [a, b] => simp at hlen
          | [a, b, e] => simp at hlen
          | q0 :: q1 :: q2 :: q3 :: s =>
              simp only [List.length_cons] at h hlen hdvd
              rw [fillIntoAux_cons4, fillIntoAux_cons4,
                ih r s (i + 1) (by omega) (by omega) (by omega)]

/-- C9: for any fixed counter value, the buffer fill performed by
draw_into is idempotent (filling twice with the same counter yields the
same bytes as filling once) and deterministic (two buffers of the same
length, a multiple of four as the real buffer length WIDTH*HEIGHT*4 is,
are filled to byte-identical contents regardless of their prior
contents; no real-time input exists in the model).  The trailing
sub-chunk restriction is exactly that of chunks_exact_mut(4). -/
theorem draw_into_idempotent_deterministic (c : Nat) (d d₁ d₂ : List Nat) :
    draw_into c (draw_into c d) = draw_into c d ∧
    (d₁.length = d₂.length → 4 ∣ d₁.length → draw_into c d₁ = draw_into c d₂) := by
  constructor
  · exact fillIntoAux_idem c d.length d 0 le_rfl
  · intro hlen hdvd
    exact fillIntoAux_congr c d₁.length d₁ d₂ 0 le_rfl hlen hdvd

/-- Witness for C9 at concrete inputs. -/
theorem draw_into_idem_det_witness :
    ([1, 2, 3, 4] : List Nat).length = ([5, 6, 7, 8] : List Nat).length ∧
    (4 ∣ ([1, 2, 3, 4] : List Nat).length) ∧
    draw_into 11 (draw_into 11 [1, 2, 3, 4]) = draw_into 11 [1, 2, 3, 4] ∧
    draw_into 11 [1, 2, 3, 4] = draw_into 11 [5, 6, 7, 8] :=
  ⟨by decide, by decide,
   (draw_into_idempotent_deterministic 11 [1, 2, 3, 4] [1, 2, 3, 4] [5, 6, 7, 8]).1,
   (draw_into_idempotent_deterministic 11 [1, 2, 3, 4] [1, 2, 3, 4] [5, 6, 7, 8]).2
     (by decide) (by decide)⟩

/-! ## Characterization lemmas for single dispatch steps -/

theorem not_some_and_none (x : Option Nat) (g : Nat) : ¬(x = some g ∧ x = none) := by
  rintro ⟨h1, h2⟩
  rw [h1] at h2
  exact Option.noConfusion h2

theorem frameReqs_append (l1 l2 : List Req) :
    frameReqs (l1 ++ l2) = frameReqs l1 + frameReqs l2 := by
  induction l1 with
  | nil => simp [frameReqs]
  | cons x xs ih => cases x <;> simp [frameReqs, ih] <;> omega

theorem countReq_append (r : Req) (l1 l2 : List Req) :
    countReq r (l1 ++ l2) = countReq r l1 + countReq r l2 := by
  induction l1 with
  | nil => simp [countReq]
  | cons x xs ih => simp [countReq, ih] <;> omega

theorem surfaceDestroys_append (l1 l2 : List Req) :
    surfaceDestroys (l1 ++ l2) = surfaceDestroys l1 + surfaceDestroys l2 := by
  induction l1 with
  | nil => simp [surfaceDestroys]
  | cons x xs ih => cases x <;> simp [surfaceDestroys, ih] <;> omega

theorem surfaceCreates_append (l1 l2 : List Req) :
    surfaceCreates (l1 ++ l2) = surfaceCreates l1 + surfaceCreates l2 := by
  induction l1 with
  | nil => simp [surfaceCreates]
  | cons x xs ih => cases x <;> simp [surfaceCreates, ih] <;> omega

theorem vkKeyCalls_append (l1 l2 : List Req) :
    vkKeyCalls (l1 ++ l2) = vkKeyCalls l1 ++ vkKeyCalls l2 := by
  induction l1 with
  | nil => simp [vkKeyCalls]
  | cons x xs ih => cases x <;> simp [vkKeyCalls, ih]

/-- A pressed key toggles whether the popup exists, in every state. -/
theorem step_press_toggles (w : Bool) (st : App) (t k : Nat) (a : Bool) :
    ((step w st (Ev.key t k 1 a)).1.open_popup).isSome = !st.open_popup.isSome := by
  cases hp : st.open_popup <;> cases w <;> simp [step, pressStep, draw, hp]

/-- A key event whose state is not pressed leaves the state unchanged
and only forwards the key. -/
theorem step_key_not_pressed (w : Bool) (st : App) (t k ks : Nat) (a : Bool) (h : ks ≠ 1) :
    step w st (Ev.key t k ks a) = (st, [Req.vkKey t k ks]) := by
  simp [step, h]

/-- A pressed key while the popup is shown only drops the popup
(emitting its destroy) and forwards the key. -/
theorem step_press_shown (w : Bool) (st : App) (p t k : Nat) (a : Bool)
    (h : st.open_popup = some p) :
    step w st (Ev.key t k 1 a) =
      ({ st with open_popup := none }, [Req.popupDestroy p, Req.vkKey t k 1]) := by
  simp [step, pressStep, h]

/-- Exactly one release request is emitted by a step precisely when that
step discards the currently held grab handle (the Drop impl of
GrabbedKeyboard). -/
theorem step_release_count (w : Bool) (st : App) (e : Ev) (g : Nat) :
    countReq (Req.release g) (step w st e).2 =
      if st.grabbed_keyboard = some g ∧ (step w st e).1.grabbed_keyboard = none
      then 1 else 0 := by
  cases e with
  | done =>
      by_cases hpa : st.pending_active <;> cases hg : st.grabbed_keyboard <;>
        simp [step, hpa, hg, countReq] <;> split <;> simp_all [countReq]
  | key t k ks a =>
      by_cases hks : ks = 1
      · subst hks
        cases hp : st.open_popup <;> cases w <;>
          simp [step, pressStep, draw, hp, countReq, not_some_and_none]
      · simp [step, hks, countReq, not_some_and_none]
  | frameCb a =>
      cases hf : st.pendingFrames <;>
        simp [step, draw, hf, countReq, not_some_and_none]
  | _ => simp [step, countReq, not_some_and_none]

/-- Exactly one popup destroy request is emitted by a step precisely
when that step discards the currently open popup handle (the Drop impl
of OpenPopup). -/
theorem step_popupDestroy_count (w : Bool) (st : App) (e : Ev) (p : Nat) :
    countReq (Req.popupDestroy p) (step w st e).2 =
      if st.open_popup = some p ∧ (step w st e).1.open_popup = none
      then 1 else 0 := by
  cases e with
  | done =>
      by_cases hpa : st.pending_active <;> cases hg : st.grabbed_keyboard <;>
        simp [step, hpa, hg, countReq, not_some_and_none]
  | key t k ks a =>
      by_cases hks : ks = 1
      · subst hks
        cases hp : st.open_popup <;> cases w <;>
          simp [step, pressStep, draw, hp, countReq] <;>
          split <;> simp_all [countReq]
      · simp [step, hks, countReq, not_some_and_none]
  | frameCb a =>
      cases hf : st.pendingFrames <;>
        simp [step, draw, hf, countReq, not_some_and_none]
  | _ => simp [step, countReq, not_some_and_none]

theorem run_append (w : Bool) (l1 l2 : List Ev) :
    ∀ st : App, run w st (l1 ++ l2) = run w (run w st l1) l2 := by
  induction l1 with
  | nil => intro st; rfl
  | cons e es ih => intro st; simp [run, ih]

theorem runLog_fst (w : Bool) (es : List Ev) :
    ∀ st : App, (runLog w st es).1 = run w st es := by
  induction es with
  | nil => intro st; rfl
  | cons e es ih => intro st; simp [runLog, run, ih]

/-- Events that are not key presses do not change whether the popup
exists. -/
theorem step_popup_not_press (w : Bool) (st : App) (e : Ev) (h : isPress e = false) :
    (step w st e).1.open_popup = st.open_popup := by
  cases e with
  | done =>
      by_cases hpa : st.pending_active <;> cases hg : st.grabbed_keyboard <;>
        simp [step, hpa, hg]
  | key t k ks a =>
      simp [isPress] at h
      simp [step, h]
  | frameCb a =>
      cases hf : st.pendingFrames <;> simp [step, draw, hf]
  | _ => simp [step]

/-- The popup exists after a run iff the parity of the number of key
presses flips the initial popup presence. -/
theorem run_popup_parity (w : Bool) (es : List Ev) :
    ∀ st : App, (run w st es).open_popup.isSome =
      Bool.xor st.open_popup.isSome (pressCount es % 2 == 1) := by
  induction es with
  | nil =>
      intro st
      simp [run, pressCount, List.countP_nil]
  | cons e es ih =>
      intro st
      have hcnt : pressCount (e :: es) = pressCount es + (if isPress e then 1 else 0) := by
        simp [pressCount, List.countP_cons]
      by_cases hp : isPress e = true
      · obtain ⟨t, k, a, rfl⟩ : ∃ t k a, e = Ev.key t k 1 a := by
          cases e <;> simp [isPress] at hp
          case key t k ks a => exact ⟨t, k, a, by rw [hp]⟩
        show (run w (step w st (Ev.key t k 1 a)).1 es).open_popup.isSome = _
        rw [ih, step_press_toggles, hcnt]
        simp only [hp, if_true]
        rcases Nat.mod_two_eq_zero_or_one (pressCount es) with h2 | h2 <;>
          cases hx : st.open_popup.isSome <;>
          simp [hx, Nat.add_mod, h2]
      · have hp' : isPress e = false := by simpa using hp
        show (run w (step w st e).1 es).open_popup.isSome = _
        rw [ih, step_popup_not_press w st e hp', hcnt]
        simp [hp']

/-- A list of key-press events (key-state 1) built from arbitrary
times, keycodes and canvas-availability oracles. -/
def pressEvents (ps : List (Nat × Nat × Bool)) : List Ev :=
  ps.map (fun q => Ev.key q.1 q.2.1 1 q.2.2)

theorem pressCount_pressEvents (ps : List (Nat × Nat × Bool)) :
    pressCount (pressEvents ps) = ps.length := by
  induction ps with
  | nil => simp [pressEvents, pressCount, List.countP_nil]
  | cons q qs ih =>
      simp [pressEvents, pressCount, List.countP_cons, isPress] at ih ⊢

/-- C3: starting from a fresh session (popup hidden), after any
sequence of N pressed-key events the popup exists iff N is odd; and a
key-release event (key-state 0) never changes the popup state, in any
state. -/
theorem popup_press_parity (w : Bool) (ps : List (Nat × Nat × Bool))
    (st : App) (t k : Nat) (a : Bool) :
    ((run w initApp (pressEvents ps)).open_popup.isSome = true ↔ Odd ps.length) ∧
    (step w st (Ev.key t k 0 a)).1.open_popup = st.open_popup := by
  constructor
  · rw [run_popup_parity, pressCount_pressEvents]
    have : initApp.open_popup.isSome = false := rfl
    rw [this, Nat.odd_iff]
    cases h2 : (ps.length % 2 == 1) <;> simp_all
  · simp [step]

/-- Activation intent events: true is Activate, false is Deactivate. -/
def intentEvents (bs : List Bool) : List Ev :=
  bs.map (fun b => cond b Ev.activate Ev.deactivate)

theorem getLast?_getD_cons (b d : Bool) (bs : List Bool) :
    (b :: bs).getLast?.getD d = bs.getLast?.getD b := by
  induction bs generalizing b d with
  | nil => rfl
  | cons x xs ih => rw [List.getLast?_cons_cons, ih x d, ih x b]

/-- Intent events only latch pending_active to the last intent; they
have no other effect (no side effects before the commit). -/
theorem run_intents (w : Bool) (bs : List Bool) :
    ∀ st : App, run w st (intentEvents bs) =
      { st with pending_active := bs.getLastD st.pending_active } := by
  induction bs with
  | nil => intro st; simp [intentEvents, run]
  | cons b bs ih =>
      intro st
      cases b <;> simp [intentEvents, run, step] at ih ⊢ <;>
        simp [ih, getLast?_getD_cons]

theorem getLastD_cons_any (b d : Bool) (bs : List Bool) :
    (b :: bs).getLastD d = bs.getLastD b := by
  simp [List.getLastD_eq_getLast?, getLast?_getD_cons]

/-- C2: for every nonempty sequence of Activate (true) / Deactivate
(false) intents followed by a Done commit, from any state, a grab
exists after the commit iff the last intent was Activate; a grab
request is never issued while a grab is already held (the grab field is
an Option, so at most one grab exists at any point by construction);
and a Done commit while inactive with no grab held is a no-op (release
of an absent grab emits nothing). -/
theorem grab_latch_invariant (w : Bool) (st : App) (b : Bool) (bs : List Bool)
    (g gp : Nat) (e : Ev) :
    ((run w st (intentEvents (b :: bs) ++ [Ev.done])).grabbed_keyboard.isSome
        = (b :: bs).getLastD false) ∧
    countReq (Req.grab g) (step w { st with grabbed_keyboard := some gp } e).2 = 0 ∧
    step w { st with pending_active := false, grabbed_keyboard := none } Ev.done
      = ({ st with pending_active := false, grabbed_keyboard := none }, []) := by
  refine ⟨?_, ?_, ?_⟩
  · rw [run_append, run_intents, getLastD_cons_any, getLastD_cons_any]
    cases hl : bs.getLastD b <;> cases hg : st.grabbed_keyboard <;>
      simp [run, step, hl, hg]
  · cases e with
    | done =>
        by_cases hpa : st.pending_active <;> simp [step, hpa, countReq]
    | key t k ks a =>
        by_cases hks : ks = 1
        · subst hks
          cases hp : st.open_popup <;> cases w <;>
            simp [step, pressStep, draw, hp, countReq]
        · simp [step, hks, countReq]
    | frameCb a =>
        cases hf : st.pendingFrames <;> simp [step, draw, hf, countReq]
    | _ => simp [step, countReq]
  · simp [step]

/-- C4: every key event on the grab, press or release, in every state
and under either toggle transition, results in exactly one forwarding
call to the virtual keyboard carrying the identical time, keycode and
key-state; keymap and modifier events are forwarded with their fields
unmodified and leave the whole state (in particular the toggle state)
unchanged. -/
theorem key_forwarding_unconditional (w : Bool) (st : App)
    (t k ks f fd sz md ml mlk grp : Nat) (a : Bool) :
    vkKeyCalls (step w st (Ev.key t k ks a)).2 = [(t, k, ks)] ∧
    step w st (Ev.keymap f fd sz) = (st, [Req.vkKeymap f fd sz]) ∧
    step w st (Ev.modifiers md ml mlk grp) = (st, [Req.vkModifiers md ml mlk grp]) := by
  refine ⟨?_, by simp [step], by simp [step]⟩
  by_cases hks : ks = 1
  · subst hks
    cases hp : st.open_popup <;> cases w <;>
      simp [step, pressStep, draw, hp, vkKeyCalls, vkKeyCalls_append]
  · simp [step, hks, vkKeyCalls]

/-- C10: a Done commit with the latched intent inactive only drops the
grab (emitting its release request if one was held); the popup, the
surface, the pixel buffer (identity and contents), the draw counter
(toggle phase and fill parameter source) and the outstanding frame
requests are all left unchanged. -/
theorem deactivate_commit_effects (w : Bool) (st : App) :
    ((step w { st with pending_active := false } Ev.done).1
        = { st with pending_active := false, grabbed_keyboard := none }) ∧
    ((step w { st with pending_active := false } Ev.done).1.open_popup = st.open_popup) ∧
    ((step w { st with pending_active := false } Ev.done).1.surface = st.surface) ∧
    ((step w { st with pending_active := false } Ev.done).1.bufId = st.bufId) ∧
    ((step w { st with pending_active := false } Ev.done).1.bufData = st.bufData) ∧
    ((step w { st with pending_active := false } Ev.done).1.drawCount = st.drawCount) ∧
    ((step w { st with pending_active := false } Ev.done).1.pendingFrames = st.pendingFrames) ∧
    ((step w { st with pending_active := false } Ev.done).2
        = st.grabbed_keyboard.elim [] (fun g => [Req.release g])) := by
  cases hg : st.grabbed_keyboard <;> simp [step, hg]

/-- Modelled from the spec wording of the repaint algorithm, for
comparison with the implementation: attach the buffer, mark a
full-surface damage region, commit the surface, and then schedule the
next frame notification (commit before frame request). -/
def drawReqsSpecOrdered (surf buf : Nat) : List Req :=
  [Req.attach surf buf, Req.damage surf 0 0 WIDTH HEIGHT,
   Req.commit surf, Req.frame surf]

/-- C7 counterexample: at a concrete repaint the implementation emits
attach, damage, frame, commit in that order - the frame notification is
requested before the commit, not after it as the claim lists the
steps. -/
theorem repaint_order_counterexample :
    (draw true initApp).2 =
      [Req.attach 0 0, Req.damage 0 0 0 10 300, Req.frame 0, Req.commit 0] ∧
    (draw true initApp).2 ≠ drawReqsSpecOrdered 0 0 := by decide

/-- C7 as amended: every repaint reuses the current buffer when the
canvas is available (not in flight) and allocates a fresh pool buffer
when it is in flight, fills it deterministically from the current
counter, then attaches the buffer, damages the full surface, requests
the next frame notification, and commits (the frame request precedes
the commit that transmits it). -/
theorem repaint_algorithm_steps (a : Bool) (st : App) :
    ((draw a st).1.bufId = cond a st.bufId st.nextBufId) ∧
    ((draw a st).1.nextBufId = cond a st.nextBufId (st.nextBufId + 1)) ∧
    ((draw a st).1.bufData
        = draw_into st.drawCount (cond a st.bufData (List.replicate bufLen 0))) ∧
    ((draw a st).1.drawCount = st.drawCount + 1) ∧
    ((draw a st).1.pendingFrames = st.pendingFrames ++ [st.surface]) ∧
    ((draw a st).2 = [Req.attach st.surface (cond a st.bufId st.nextBufId),
      Req.damage st.surface 0 0 WIDTH HEIGHT, Req.frame st.surface,
      Req.commit st.surface]) := by
  cases a <;> simp [draw]

/-- The scenario of showing, hiding and re-showing the popup (three
presses) with the frame callback from the first repaint still
undelivered. -/
def pressThrice : List Ev :=
  [Ev.key 0 0 1 true, Ev.key 0 0 1 true, Ev.key 0 0 1 true]

/-- C1 counterexample: with the workaround disabled (as in the source,
if false), after press, press, press with the first frame callback
still pending, two frame requests are outstanding against the single
live surface. -/
theorem frame_outstanding_counterexample :
    outstandingOnLive (run false initApp pressThrice) = 2 := by decide

/-- C1 as amended: every repaint issues exactly one frame request and
every dispatched event issues at most one, but outstanding requests
against the live surface are not bounded by one: re-showing the popup
while the earlier frame callback is still pending (press, press, press)
leaves two outstanding against the live surface. -/
theorem frame_request_discipline (w a : Bool) (st : App) (e : Ev) :
    frameReqs (draw a st).2 = 1 ∧
    frameReqs (step w st e).2 ≤ 1 ∧
    outstandingOnLive (run false initApp pressThrice) = 2 := by
  refine ⟨?_, ?_, by decide⟩
  · cases a <;> simp [draw, frameReqs]
  · cases e with
    | key t k ks a2 =>
        by_cases hks : ks = 1
        · subst hks
          cases hp : st.open_popup <;> cases w <;> cases a2 <;>
            simp [step, pressStep, draw, hp, frameReqs, frameReqs_append]
        · simp [step, hks, frameReqs]
    | frameCb a2 =>
        cases hf : st.pendingFrames <;> cases a2 <;> simp [step, draw, hf, frameReqs]
    | done =>
        by_cases hpa : st.pending_active <;> cases hg : st.grabbed_keyboard <;>
          simp [step, hpa, hg, frameReqs]
    | _ => simp [step, frameReqs]

/-- C6: on a fresh session receiving four key presses, the popup exists
after presses 1 and 3 and not after presses 2 and 4; each
hidden-to-shown transition (presses 1 and 3) performs exactly one
surface destroy-and-recreate when the workaround flag is enabled and
none when it is disabled (the flag is the embedding of the editable
if-false literal in the source, quantified here over both settings);
and a shown-to-hidden press never destroys or changes the surface, in
any state. -/
theorem workaround_scenario (w : Bool) (t1 k1 t2 k2 t3 k3 t4 k4 p t k : Nat)
    (a1 a2 a3 a4 a : Bool) (st : App) :
    let r1 := step w initApp (Ev.key t1 k1 1 a1)
    let r2 := step w r1.1 (Ev.key t2 k2 1 a2)
    let r3 := step w r2.1 (Ev.key t3 k3 1 a3)
    let r4 := step w r3.1 (Ev.key t4 k4 1 a4)
    (r1.1.open_popup.isSome = true ∧ r2.1.open_popup.isSome = false ∧
     r3.1.open_popup.isSome = true ∧ r4.1.open_popup.isSome = false) ∧
    (surfaceDestroys r1.2 = cond w 1 0 ∧ surfaceCreates r1.2 = cond w 1 0) ∧
    (surfaceDestroys r3.2 = cond w 1 0 ∧ surfaceCreates r3.2 = cond w 1 0) ∧
    (surfaceDestroys r2.2 = 0 ∧ surfaceDestroys r4.2 = 0) ∧
    (surfaceDestroys (step w { st with open_popup := some p } (Ev.key t k 1 a)).2 = 0) ∧
    ((step w { st with open_popup := some p } (Ev.key t k 1 a)).1.surface = st.surface) := by
  cases w <;>
    simp [step, pressStep, draw, surfaceDestroys, surfaceCreates, surfaceDestroys_append,
      surfaceCreates_append, initApp]

/-- Each draw consumes the successive DRAW_COUNT values 0, 1, 2, ...:
the fill parameters recorded so far are always range drawCount. -/
theorem step_fill_ghost (w : Bool) (st : App) (e : Ev)
    (h : st.fillParams = List.range st.drawCount) :
    (step w st e).1.fillParams = List.range (step w st e).1.drawCount := by
  cases e with
  | key t k ks a =>
      by_cases hks : ks = 1
      · subst hks
        cases hp : st.open_popup <;> cases w <;>
          simp [step, pressStep, draw, hp, h, List.range_succ]
      · simp [step, hks, h]
  | frameCb a =>
      cases hf : st.pendingFrames <;> simp [step, draw, hf, h, List.range_succ]
  | done =>
      by_cases hpa : st.pending_active <;> cases hg : st.grabbed_keyboard <;>
        simp [step, hpa, hg, h]
  | _ => simp [step, h]

theorem run_fill_ghost (w : Bool) (es : List Ev) :
    (run w initApp es).fillParams = List.range (run w initApp es).drawCount := by
  suffices h : ∀ st : App, st.fillParams = List.range st.drawCount →
      (run w st es).fillParams = List.range (run w st es).drawCount from h initApp rfl
  induction es with
  | nil => intro st h; simpa [run] using h
  | cons e es ih => intro st h; exact ih _ (step_fill_ghost w st e h)

/-- One key press followed by ten frame callbacks. -/
def c8trace : List Ev := Ev.key 0 0 1 true :: List.replicate 10 (Ev.frameCb true)

/-- C8 counterexample: after one key press and ten frame callbacks the
last repaint filled the buffer with counter value 10 although only one
key press has occurred, and counter value 10 produces a genuinely
different pattern from counter value 1 (the first pixel row turns red):
the counter parameterizing the fill is not the key-press count. -/
theorem fill_counter_counterexample :
    pressCount c8trace = 1 ∧
    (run false initApp c8trace).fillParams.getLast? = some 10 ∧
    fillChunk 10 0 ≠ fillChunk 1 0 := by decide

/-- C8 as amended: the counter parameterizing the fill pattern is the
monotonic count of draw (repaint) calls - it increments on every
repaint, whether triggered by a key press or by a frame callback - so
the fill parameters used over any trace are exactly 0, 1, ...,
drawCount - 1; the toggle phase is chosen by popup presence, which
equals the parity of the key-press count (odd means shown). -/
theorem fill_counter_draw_count (w : Bool) (es : List Ev) :
    (run w initApp es).fillParams = List.range (run w initApp es).drawCount ∧
    ((run w initApp es).open_popup.isSome = true ↔ Odd (pressCount es)) := by
  constructor
  · exact run_fill_ghost w es
  · rw [run_popup_parity]
    have h0 : initApp.open_popup.isSome = false := rfl
    rw [h0, Nat.odd_iff]
    cases h2 : (pressCount es % 2 == 1) <;> simp_all

/-- Across one step the grab id supply is monotone and the grab field
either stays, becomes none, or becomes the freshly allocated id. -/
theorem step_grab_next (w : Bool) (st : App) (e : Ev) :
    st.nextGrabId ≤ (step w st e).1.nextGrabId ∧
    ((step w st e).1.grabbed_keyboard = st.grabbed_keyboard ∨
     (step w st e).1.grabbed_keyboard = none ∨
     ((step w st e).1.grabbed_keyboard = some st.nextGrabId ∧
      st.nextGrabId < (step w st e).1.nextGrabId)) := by
  cases e with
  | done =>
      by_cases hpa : st.pending_active <;> cases hg : st.grabbed_keyboard <;>
        simp [step, hpa, hg]
  | key t k ks a =>
      by_cases hks : ks = 1
      · subst hks
        cases hp : st.open_popup <;> cases w <;> simp [step, pressStep, draw, hp]
      · simp [step, hks]
  | frameCb a =>
      cases hf : st.pendingFrames <;> simp [step, draw, hf]
  | _ => simp [step]

/-- Across one step the popup id supply is monotone and the popup field
either stays, becomes none, or becomes the freshly allocated id. -/
theorem step_popup_next (w : Bool) (st : App) (e : Ev) :
    st.nextPopupId ≤ (step w st e).1.nextPopupId ∧
    ((step w st e).1.open_popup = st.open_popup ∨
     (step w st e).1.open_popup = none ∨
     ((step w st e).1.open_popup = some st.nextPopupId ∧
      st.nextPopupId < (step w st e).1.nextPopupId)) := by
  cases e with
  | done =>
      by_cases hpa : st.pending_active <;> cases hg : st.grabbed_keyboard <;>
        simp [step, hpa, hg]
  | key t k ks a =>
      by_cases hks : ks = 1
      · subst hks
        cases hp : st.open_popup <;> cases w <;> simp [step, pressStep, draw, hp]
      · simp [step, hks]
  | frameCb a =>
      cases hf : st.pendingFrames <;> simp [step, draw, hf]
  | _ => simp [step]

/-- A grab id that is already spent and not currently held is never
held again. -/
theorem step_grabDead (w : Bool) (st : App) (e : Ev) (g : Nat)
    (h1 : g < st.nextGrabId) (h2 : st.grabbed_keyboard ≠ some g) :
    g < (step w st e).1.nextGrabId ∧ (step w st e).1.grabbed_keyboard ≠ some g := by
  obtain ⟨hm, hd⟩ := step_grab_next w st e
  refine ⟨lt_of_lt_of_le h1 hm, ?_⟩
  rcases hd with hc | hc | ⟨hc, _⟩
  · rw [hc]; exact h2
  · simp [hc]
  · rw [hc]
    intro hcontra
    simp only [Option.some.injEq] at hcontra
    omega

/-- A popup id that is already spent and not currently open is never
open again. -/
theorem step_popupDead (w : Bool) (st : App) (e : Ev) (p : Nat)
    (h1 : p < st.nextPopupId) (h2 : st.open_popup ≠ some p) :
    p < (step w st e).1.nextPopupId ∧ (step w st e).1.open_popup ≠ some p := by
  obtain ⟨hm, hd⟩ := step_popup_next w st e
  refine ⟨lt_of_lt_of_le h1 hm, ?_⟩
  rcases hd with hc | hc | ⟨hc, _⟩
  · rw [hc]; exact h2
  · simp [hc]
  · rw [hc]
    intro hcontra
    simp only [Option.some.injEq] at hcontra
    omega

/-- The held grab id, when present, is always below the id supply. -/
theorem step_grabWf (w : Bool) (st : App) (e : Ev)
    (h : ∀ g0, st.grabbed_keyboard = some g0 → g0 < st.nextGrabId) :
    ∀ g0, (step w st e).1.grabbed_keyboard = some g0 →
      g0 < (step w st e).1.nextGrabId := by
  obtain ⟨hm, hd⟩ := step_grab_next w st e
  intro g0 hg0
  rcases hd with hc | hc | ⟨hc, hlt⟩
  · exact lt_of_lt_of_le (h g0 (hc ▸ hg0)) hm
  · rw [hc] at hg0; exact absurd hg0 (by simp)
  · rw [hc] at hg0
    simp only [Option.some.injEq] at hg0
    omega

/-- The open popup id, when present, is always below the id supply. -/
theorem step_popupWf (w : Bool) (st : App) (e : Ev)
    (h : ∀ p0, st.open_popup = some p0 → p0 < st.nextPopupId) :
    ∀ p0, (step w st e).1.open_popup = some p0 →
      p0 < (step w st e).1.nextPopupId := by
  obtain ⟨hm, hd⟩ := step_popup_next w st e
  intro p0 hp0
  rcases hd with hc | hc | ⟨hc, hlt⟩
  · exact lt_of_lt_of_le (h p0 (hc ▸ hp0)) hm
  · rw [hc] at hp0; exact absurd hp0 (by simp)
  · rw [hc] at hp0
    simp only [Option.some.injEq] at hp0
    omega

/-- No release request for a spent, no longer held grab id is ever
emitted again. -/
theorem dead_release (w : Bool) (g : Nat) :
    ∀ (es : List Ev) (st : App), g < st.nextGrabId → st.grabbed_keyboard ≠ some g →
      countReq (Req.release g) (runLog w st es).2 = 0 := by
  intro es
  induction es with
  | nil => intro st _ _; simp [runLog, countReq]
  | cons e es ih =>
      intro st h1 h2
      obtain ⟨h1', h2'⟩ := step_grabDead w st e g h1 h2
      simp only [runLog, countReq_append, step_release_count, ih (step w st e).1 h1' h2']
      have hneg : ¬(st.grabbed_keyboard = some g ∧
          (step w st e).1.grabbed_keyboard = none) := by
        rintro ⟨hc, _⟩
        exact h2 hc
      rw [if_neg hneg]

/-- No destroy request for a spent, no longer open popup id is ever
emitted again. -/
theorem dead_popupDestroy (w : Bool) (p : Nat) :
    ∀ (es : List Ev) (st : App), p < st.nextPopupId → st.open_popup ≠ some p →
      countReq (Req.popupDestroy p) (runLog w st es).2 = 0 := by
  intro es
  induction es with
  | nil => intro st _ _; simp [runLog, countReq]
  | cons e es ih =>
      intro st h1 h2
      obtain ⟨h1', h2'⟩ := step_popupDead w st e p h1 h2
      simp only [runLog, countReq_append, step_popupDestroy_count, ih (step w st e).1 h1' h2']
      have hneg : ¬(st.open_popup = some p ∧
          (step w st e).1.open_popup = none) := by
        rintro ⟨hc, _⟩
        exact h2 hc
      rw [if_neg hneg]

/-- Along any run from a state whose held grab id is fresh, at most one
release request per grab id is ever emitted. -/
theorem release_le_one (w : Bool) (g : Nat) :
    ∀ (es : List Ev) (st : App),
      (∀ g0, st.grabbed_keyboard = some g0 → g0 < st.nextGrabId) →
      countReq (Req.release g) (runLog w st es).2 ≤ 1 := by
  intro es
  induction es with
  | nil => intro st _; simp [runLog, countReq]
  | cons e es ih =>
      intro st hwf
      simp only [runLog, countReq_append, step_release_count]
      by_cases hc : st.grabbed_keyboard = some g ∧ (step w st e).1.grabbed_keyboard = none
      · rw [if_pos hc]
        have hlt : g < st.nextGrabId := hwf g hc.1
        obtain ⟨hm, _⟩ := step_grab_next w st e
        have hdead : countReq (Req.release g) (runLog w (step w st e).1 es).2 = 0 :=
          dead_release w g es (step w st e).1 (lt_of_lt_of_le hlt hm) (by simp [hc.2])
        omega
      · rw [if_neg hc]
        have := ih (step w st e).1 (step_grabWf w st e hwf)
        omega

/-- Along any run from a state whose open popup id is fresh, at most
one destroy request per popup id is ever emitted. -/
theorem popupDestroy_le_one (w : Bool) (p : Nat) :
    ∀ (es : List Ev) (st : App),
      (∀ p0, st.open_popup = some p0 → p0 < st.nextPopupId) →
      countReq (Req.popupDestroy p) (runLog w st es).2 ≤ 1 := by
  intro es
  induction es with
  | nil => intro st _; simp [runLog, countReq]
  | cons e es ih =>
      intro st hwf
      simp only [runLog, countReq_append, step_popupDestroy_count]
      by_cases hc : st.open_popup = some p ∧ (step w st e).1.open_popup = none
      · rw [if_pos hc]
        have hlt : p < st.nextPopupId := hwf p hc.1
        obtain ⟨hm, _⟩ := step_popup_next w st e
        have hdead : countReq (Req.popupDestroy p) (runLog w (step w st e).1 es).2 = 0 :=
          dead_popupDestroy w p es (step w st e).1 (lt_of_lt_of_le hlt hm) (by simp [hc.2])
        omega
      · rw [if_neg hc]
        have := ih (step w st e).1 (step_popupWf w st e hwf)
        omega

/-- C5: per owned handle lifetime, dropping a Grab issues exactly one
release request and dropping a Popup issues exactly one destroy
request.  Concretely: over every whole run of the event loop each grab
id is released at most once and each popup id is destroyed at most
once, and every single dispatch step emits exactly one release
(respectively destroy) precisely when it is the step that discards the
held handle - there is no discard path that skips or duplicates the
outbound call. -/
theorem owned_handle_release_counts (w : Bool) (es : List Ev) (g p : Nat)
    (st : App) (e : Ev) :
    countReq (Req.release g) (runLog w initApp es).2 ≤ 1 ∧
    countReq (Req.popupDestroy p) (runLog w initApp es).2 ≤ 1 ∧
    (countReq (Req.release g) (step w st e).2
      = if st.grabbed_keyboard = some g ∧ (step w st e).1.grabbed_keyboard = none
        then 1 else 0) ∧
    (countReq (Req.popupDestroy p) (step w st e).2
      = if st.open_popup = some p ∧ (step w st e).1.open_popup = none
        then 1 else 0) :=
  ⟨release_le_one w g es initApp (by intro g0 h; exact absurd h (by simp [initApp])),
   popupDestroy_le_one w p es initApp (by intro p0 h; exact absurd h (by simp [initApp])),
   step_release_count w st e g,
   step_popupDestroy_count w st e p⟩
